import Mathlib

/-!
Verification development for the KR1 delta-report generator
(`generate_kr1_report.py`).

The script normalizes resource records from two catalogs (Aquifer and DCS),
classifies each record by a completion percentage against the English
baseline, merges the statuses of all records matching a
(language, category, source) cell by a fixed priority order, and emits the
resulting matrix to Excel (`save_to_excel`) and to a database table
(`save_to_fred`).

Statuses are the Python strings of the script: `"Satisfied"`,
`"In Progress"`, `"Unknown"`, and the empty string `""` (called Empty in
the specification).
-/

deriving instance DecidableEq for Except

/-! ## Baseline completion calculator (`get_status`, `safe_get_status`) -/

/-- Round-half-to-even on rationals, modelling Python's `round` tie rule. -/
def roundHalfEven (q : ℚ) : ℤ :=
  let f := ⌊q⌋
  let r := q - f
  if r < 1/2 then f
  else if 1/2 < r then f + 1
  else if f % 2 = 0 then f else f + 1

/-- `round(x, 3)` of the script, idealized over the rationals. -/
def round3 (q : ℚ) : ℚ := (roundHalfEven (q * 1000) : ℚ) / 1000

/-- `get_status(pct)` of the script (lines 171-176): `pct >= 90` gives
`"Satisfied"`, `pct > 0` gives `"In Progress"`, anything else the empty
string. -/
def get_status (pct : ℚ) : String :=
  if pct ≥ 90 then "Satisfied"
  else if pct > 0 then "In Progress"
  else ""

/-- The `completion_pct` column (lines 227-231): defined only when the
baseline count is present and strictly positive, and then equal to
`round(count / base * 100, 3)`; `None` otherwise. -/
def completion_pct (count : ℕ) (base : Option ℚ) : Option ℚ :=
  match base with
  | some b => if 0 < b then some (round3 ((count : ℚ) / b * 100)) else none
  | none => none

/-- Python's `get_status` applied to a possibly-`None` percentage: comparing
`None >= 90` raises a `TypeError`, modelled as `Except.error`. -/
def get_status_py (pct : Option ℚ) : Except String String :=
  match pct with
  | some p => .ok (get_status p)
  | none => .error "TypeError: >= not supported between NoneType and int"

/-- `safe_get_status(row)` of the script (lines 234-239): `"Unknown"` when
`base_count` is null, otherwise `get_status` of the `completion_pct`
column. -/
def safe_get_status (count : ℕ) (base : Option ℚ) : Except String String :=
  match base with
  | none => .ok "Unknown"
  | some b => get_status_py (completion_pct count (some b))

/-- C1: for every record with a known positive baseline count, the status is
`get_status` of the percentage `round(count / base * 100, 3)`, which is
`"Satisfied"` when the percentage is at least 90, `"In Progress"` when it is
strictly between 0 and 90, and `""` (Empty) when it is 0; in particular
classifying count 90 against baseline 100 gives Satisfied, 89 gives
In Progress, and 0 gives Empty. -/
theorem c1_baseline_classification (count : ℕ) (b : ℚ) (hb : 0 < b) :
    safe_get_status count (some b) = .ok (get_status (round3 ((count : ℚ) / b * 100)))
    ∧ (90 ≤ round3 ((count : ℚ) / b * 100) →
        get_status (round3 ((count : ℚ) / b * 100)) = "Satisfied")
    ∧ (0 < round3 ((count : ℚ) / b * 100) ∧ round3 ((count : ℚ) / b * 100) < 90 →
        get_status (round3 ((count : ℚ) / b * 100)) = "In Progress")
    ∧ (round3 ((count : ℚ) / b * 100) = 0 →
        get_status (round3 ((count : ℚ) / b * 100)) = "")
    ∧ safe_get_status 90 (some 100) = .ok "Satisfied"
    ∧ safe_get_status 89 (some 100) = .ok "In Progress"
    ∧ safe_get_status 0 (some 100) = .ok "" := by
  refine ⟨?_, ?_, ?_, ?_, ?_, ?_, ?_⟩
  · simp [safe_get_status, completion_pct, hb, get_status_py]
  · intro h
    rw [get_status, if_pos h]
  · rintro ⟨h1, h2⟩
    rw [get_status, if_neg (not_le.mpr h2), if_pos h1]
  · intro h
    rw [get_status, h]
    norm_num
  · norm_num [safe_get_status, completion_pct, get_status_py, get_status, round3, roundHalfEven]
  · norm_num [safe_get_status, completion_pct, get_status_py, get_status, round3, roundHalfEven]
  · norm_num [safe_get_status, completion_pct, get_status_py, get_status, round3, roundHalfEven]

theorem c1_baseline_classification_witness :
    (0 : ℚ) < 100 ∧ safe_get_status 89 (some 100) = .ok "In Progress" :=
  ⟨by norm_num, (c1_baseline_classification 89 100 (by norm_num)).2.2.2.2.2.1⟩

/-- C2: the claim says a baseline that is absent or ≤ 0 always yields
`"Unknown"` with no arithmetic fault.  The code only returns `"Unknown"` for
an absent (null) baseline; for a present baseline equal to 0 (or negative),
`completion_pct` is `None` and `safe_get_status` calls `get_status(None)`,
which raises a `TypeError` at `None >= 90`.  This theorem evaluates the code
at the failing input (count 5, baseline 0) and records the absent-baseline
half that does hold. -/
theorem c2_nonpositive_baseline_faults :
    safe_get_status 5 (some 0) =
      .error "TypeError: >= not supported between NoneType and int"
    ∧ (∀ count : ℕ, ∀ b : ℚ, b ≤ 0 → safe_get_status count (some b) =
        .error "TypeError: >= not supported between NoneType and int")
    ∧ (∀ count : ℕ, safe_get_status count none = .ok "Unknown") := by
  refine ⟨?_, ?_, fun count => rfl⟩
  · norm_num [safe_get_status, completion_pct, get_status_py]
  · intro count b hb
    simp [safe_get_status, completion_pct, not_lt.mpr hb, get_status_py]

theorem c2_nonpositive_baseline_faults_witness :
    (0 : ℚ) ≤ 0 ∧ safe_get_status 7 (some 0) =
      .error "TypeError: >= not supported between NoneType and int" :=
  ⟨le_refl 0, (c2_nonpositive_baseline_faults.2.1 7 0 (le_refl 0))⟩

/-! ## Status priority merger (`calculate_status_from_resources`) -/

/-- The `priority` table of `calculate_status_from_resources` (line 324):
`"Satisfied"` maps to 3, `"In Progress"` to 2, `"Unknown"` to 1, the empty
string to 0, and every other status defaults to 0
(`priority.get(status, 0)`). -/
def priority (s : String) : ℕ :=
  if s = "Satisfied" then 3
  else if s = "In Progress" then 2
  else if s = "Unknown" then 1
  else 0

/-- One iteration of the merger loop: keep the running `highest` pair unless
the new status has strictly greater priority. -/
def merge_step (h : String × ℕ) (s : String) : String × ℕ :=
  if priority s > h.2 then (s, priority s) else h

/-- `calculate_status_from_resources` (lines 322-332) over the list of
`resource_status` values of the matching rows: fold the loop body starting
from `("", 0)` and return the retained status. -/
def calculate_status_from_resources (statuses : List String) : String :=
  (statuses.foldl merge_step ("", 0)).1

lemma merge_fold_spec (l : List String) (acc : String × ℕ)
    (hacc : acc.2 = priority acc.1) :
    ((l.foldl merge_step acc).1 = acc.1 ∨ (l.foldl merge_step acc).1 ∈ l)
    ∧ priority acc.1 ≤ priority (l.foldl merge_step acc).1
    ∧ (l.foldl merge_step acc).2 = priority (l.foldl merge_step acc).1
    ∧ ∀ s ∈ l, priority s ≤ priority (l.foldl merge_step acc).1 := by
  induction l generalizing acc with
  | nil => simpa using hacc
  | cons x xs ih =>
    simp only [List.foldl_cons]
    by_cases h : priority x > acc.2
    · have hstep : merge_step acc x = (x, priority x) := by
        simp [merge_step, h]
      rw [hstep]
      obtain ⟨hmem, hle, hval, hall⟩ := ih (x, priority x) rfl
      refine ⟨?_, ?_, hval, ?_⟩
      · rcases hmem with h1 | h1
        · exact Or.inr (by simp [h1])
        · exact Or.inr (List.mem_cons_of_mem _ h1)
      · calc priority acc.1 = acc.2 := hacc.symm
          _ ≤ priority x := le_of_lt h
          _ ≤ _ := hle
      · intro s hs
        rcases List.mem_cons.mp hs with rfl | hs'
        · exact hle
        · exact hall s hs'
    · have hstep : merge_step acc x = acc := by
        simp [merge_step, h]
      rw [hstep]
      obtain ⟨hmem, hle, hval, hall⟩ := ih acc hacc
      refine ⟨?_, hle, hval, ?_⟩
      · rcases hmem with h1 | h1
        · exact Or.inl h1
        · exact Or.inr (List.mem_cons_of_mem _ h1)
      · intro s hs
        rcases List.mem_cons.mp hs with rfl | hs'
        · have : priority s ≤ acc.2 := Nat.le_of_not_lt h
          rw [hacc] at this
          exact le_trans this hle
        · exact hall s hs'

/-- C3: merging a nonempty list of statuses drawn from Satisfied,
In Progress, Unknown, Empty (the empty string) returns a member of the list
whose priority dominates every member, under the fixed order
Satisfied(3) > In Progress(2) > Unknown(1) > Empty(0); the listed concrete
merges hold, and the merge of the empty list is Empty, never Unknown. -/
theorem c3_merge_precedence :
    calculate_status_from_resources [] = ""
    ∧ calculate_status_from_resources ["Satisfied", "In Progress", "Unknown"] = "Satisfied"
    ∧ calculate_status_from_resources ["In Progress", "Unknown"] = "In Progress"
    ∧ calculate_status_from_resources ["Unknown", ""] = "Unknown"
    ∧ ∀ l : List String,
        (∀ s ∈ l, s ∈ (["Satisfied", "In Progress", "Unknown", ""] : List String)) →
        l ≠ [] →
        calculate_status_from_resources l ∈ l
        ∧ ∀ s ∈ l, priority s ≤ priority (calculate_status_from_resources l) := by
  refine ⟨by decide, by decide, by decide, by decide, ?_⟩
  intro l hvalid hne
  obtain ⟨hmem, _, _, hall⟩ :=
    merge_fold_spec l ("", 0) (by decide)
  rcases hmem with hres | hres
  · -- the fold never left the initial pair: every status in l has priority 0
    obtain ⟨x, hx⟩ := List.exists_mem_of_ne_nil l hne
    have hx0 : priority x = 0 := Nat.le_zero.mp (by
      have := hall x hx
      rwa [hres] at this)
    have hxe : x = "" := by
      have := hvalid x hx
      fin_cases this <;> simp_all [priority]
    refine ⟨?_, fun s hs => ?_⟩
    · rw [calculate_status_from_resources, hres, ← hxe]
      exact hx
    · rw [calculate_status_from_resources]
      exact hall s hs
  · exact ⟨hres, hall⟩

theorem c3_merge_precedence_witness :
    (∀ s ∈ (["Unknown", ""] : List String),
        s ∈ (["Satisfied", "In Progress", "Unknown", ""] : List String))
    ∧ calculate_status_from_resources ["Unknown", ""] ∈ (["Unknown", ""] : List String) :=
  ⟨by decide,
    (c3_merge_precedence.2.2.2.2 ["Unknown", ""] (by decide) (by decide)).1⟩

/-! ## Normalized records and the Excel gap matrix (`save_to_excel`) -/

/-- One row of `sl_resource_data` (the strategic-language query, lines
47-56): display name, 2-letter code (`bcp47`), 3-letter code (`iso_629_2`),
and resource level. -/
structure StrategicLanguage where
  strategic_language : String
  language_code_2 : String
  language_code_3 : String
  resource_level : ℤ
deriving DecidableEq

/-- A normalized resource record, one row of `aquifer_dcs_data` with the
columns both catalogs produce (line 317 names them for the DCS side). -/
structure Record where
  displayName : String
  englishDisplay : String
  languageCode : String
  resource_code : String
  resource_type : String
  resource_status : String
  resource_owner : String
  source : String
deriving DecidableEq

/-- The `matching_resources` filter of `save_to_excel` (lines 407-412):
category equal, source equal, and language code equal to either the
2-letter or the 3-letter code of the row's language. -/
def matching_resources (records : List Record)
    (resource_type source_key code2 code3 : String) : List Record :=
  records.filter (fun r =>
    r.resource_type == resource_type && r.source == source_key &&
      (r.languageCode == code2 || r.languageCode == code3))

/-- `expanded_headers` (lines 390-393): each category yields an
`(category, "Aquifer")` and an `(category, "DCS")` column. -/
def expanded_headers (headers : List String) : List (String × String) :=
  headers.flatMap (fun rt => [(rt, "Aquifer"), (rt, "DCS")])

/-- One cell of the delta report: the merged status and the sorted
`---code` lines (lines 405-417), keyed by (language, category, source). -/
structure GapCell where
  language : StrategicLanguage
  category : String
  source : String
  status : String
  lines : List String
deriving DecidableEq

/-- The (language, category, source) key of a cell. -/
def cell_key (c : GapCell) : StrategicLanguage × String × String :=
  (c.language, c.category, c.source)

/-- Python `str.lower()`, applied character-wise; used on the source tags
`"Aquifer"` and `"DCS"` (`source_key = source.lower()`, line 406). -/
def py_lower (s : String) : String := String.mk (s.data.map Char.toLower)

/-- Lexicographic comparison of character lists by code point, the order
Python's `sorted` uses on strings. -/
def chars_le : List Char → List Char → Bool
  | [], _ => true
  | _ :: _, [] => false
  | a :: as, b :: bs =>
    if a < b then true
    else if b < a then false
    else chars_le as bs

/-- Lexicographic string comparison by code point. -/
def str_le (a b : String) : Bool := chars_le a.data b.data

/-- Build one cell: filter with the lower-cased source tag, merge the
statuses, and sort the `---`-prefixed resource codes (lines 405-417). -/
def build_cell (records : List Record) (lang : StrategicLanguage) (rt src : String) :
    GapCell :=
  let m := matching_resources records rt (py_lower src)
    lang.language_code_2 lang.language_code_3
  { language := lang
    category := rt
    source := src
    status := calculate_status_from_resources (m.map (fun r => r.resource_status))
    lines := List.insertionSort (fun a b => str_le a b = true)
      (m.map (fun r => "---" ++ r.resource_code)) }

/-- The full cell region of the delta report (lines 396-419): one cell per
language row and per expanded header column. -/
def build_cells (langs : List StrategicLanguage) (headers : List String)
    (records : List Record) : List GapCell :=
  langs.flatMap (fun lang =>
    (expanded_headers headers).map (fun p => build_cell records lang p.1 p.2))

lemma expanded_headers_eq_product (headers : List String) :
    expanded_headers headers = headers.product ["Aquifer", "DCS"] := by
  simp [expanded_headers, List.product]

lemma length_expanded_headers (headers : List String) :
    (expanded_headers headers).length = 2 * headers.length := by
  induction headers with
  | nil => rfl
  | cons h t ih =>
    simp only [expanded_headers, List.flatMap_cons] at ih ⊢
    simp [ih]
    ring

lemma length_build_cells (langs : List StrategicLanguage) (headers : List String)
    (records : List Record) :
    (build_cells langs headers records).length =
      langs.length * (2 * headers.length) := by
  induction langs with
  | nil => simp [build_cells]
  | cons lg t ih =>
    simp only [build_cells, List.flatMap_cons, List.length_append,
      List.length_map, List.length_cons, length_expanded_headers] at ih ⊢
    rw [ih]
    ring

lemma build_cells_keys (langs : List StrategicLanguage) (headers : List String)
    (records : List Record) :
    (build_cells langs headers records).map cell_key =
      (langs.product (expanded_headers headers)).map
        (fun q => (q.1, q.2.1, q.2.2)) := by
  simp only [build_cells, List.product, List.map_flatMap, List.map_map]
  rfl

lemma nodup_expanded_headers (headers : List String) (hh : headers.Nodup) :
    (expanded_headers headers).Nodup := by
  rw [expanded_headers_eq_product]
  exact hh.product (by decide)

lemma nodup_build_cells_keys (langs : List StrategicLanguage)
    (headers : List String) (records : List Record)
    (hl : langs.Nodup) (hh : headers.Nodup) :
    ((build_cells langs headers records).map cell_key).Nodup := by
  rw [build_cells_keys]
  refine List.Nodup.map ?_ (hl.product (nodup_expanded_headers headers hh))
  intro a b hab
  obtain ⟨a1, a2, a3⟩ := a
  obtain ⟨b1, b2, b3⟩ := b
  simpa [Prod.ext_iff] using hab

lemma build_cell_mem (langs : List StrategicLanguage) (headers : List String)
    (records : List Record) (lang : StrategicLanguage) (hl : lang ∈ langs)
    (rt : String) (hrt : rt ∈ headers) (src : String)
    (hsrc : src ∈ (["Aquifer", "DCS"] : List String)) :
    build_cell records lang rt src ∈ build_cells langs headers records := by
  refine List.mem_flatMap.mpr ⟨lang, hl, ?_⟩
  refine List.mem_map.mpr ⟨(rt, src), ?_, rfl⟩
  rw [expanded_headers_eq_product]
  exact List.pair_mem_product.mpr ⟨hrt, hsrc⟩

/-- C4: for a directory of L distinct languages, C distinct categories and
the two source tags, `save_to_excel` emits exactly `L*C*2` cells, their
(language, category, source) keys are pairwise distinct, and a triple with
no matching record gets a cell whose status is `""` (Empty) with no matched
resource codes. -/
theorem c4_matrix_completeness (langs : List StrategicLanguage)
    (headers : List String) (records : List Record)
    (hl : langs.Nodup) (hh : headers.Nodup) :
    (build_cells langs headers records).length = langs.length * (2 * headers.length)
    ∧ ((build_cells langs headers records).map cell_key).Nodup
    ∧ ∀ lang ∈ langs, ∀ rt ∈ headers, ∀ src ∈ (["Aquifer", "DCS"] : List String),
        build_cell records lang rt src ∈ build_cells langs headers records
        ∧ (matching_resources records rt (py_lower src)
              lang.language_code_2 lang.language_code_3 = [] →
            (build_cell records lang rt src).status = ""
            ∧ (build_cell records lang rt src).lines = []) := by
  refine ⟨length_build_cells langs headers records,
    nodup_build_cells_keys langs headers records hl hh, ?_⟩
  intro lang hlang rt hrt src hsrc
  refine ⟨build_cell_mem langs headers records lang hlang rt hrt src hsrc, ?_⟩
  intro hm
  constructor
  · simp [build_cell, hm, calculate_status_from_resources]
  · simp [build_cell, hm]

theorem c4_matrix_completeness_witness :
    ([⟨"English - [en]", "en", "eng", 5⟩] : List StrategicLanguage).Nodup
    ∧ (["Study Notes"] : List String).Nodup
    ∧ (build_cells [⟨"English - [en]", "en", "eng", 5⟩] ["Study Notes"] []).length
        = 1 * (2 * 1) := by
  refine ⟨by decide, by decide, ?_⟩
  have h := c4_matrix_completeness [⟨"English - [en]", "en", "eng", 5⟩]
    ["Study Notes"] [] (by decide) (by decide)
  simpa using h.1

lemma mem_matching_resources {r : Record} {records : List Record}
    {rt sk c2 c3 : String} :
    r ∈ matching_resources records rt sk c2 c3 ↔
      r ∈ records ∧ r.resource_type = rt ∧ r.source = sk ∧
        (r.languageCode = c2 ∨ r.languageCode = c3) := by
  simp [matching_resources, List.mem_filter, and_assoc]

/-- C5: a normalized record matches a (language, category, source) cell
exactly when its category equals the cell's category, its source tag equals
the cell's (lower-cased) source key, and its language code equals either the
2-letter or the 3-letter code of the cell's language. -/
theorem c5_matching_rule (r : Record) (records : List Record)
    (rt sk c2 c3 : String) :
    r ∈ matching_resources records rt sk c2 c3 ↔
      r ∈ records ∧ r.resource_type = rt ∧ r.source = sk ∧
        (r.languageCode = c2 ∨ r.languageCode = c3) :=
  mem_matching_resources

lemma chars_le_total : ∀ as bs, chars_le as bs = true ∨ chars_le bs as = true := by
  intro as
  induction as with
  | nil => intro bs; left; rfl
  | cons a as ih =>
    intro bs
    cases bs with
    | nil => right; rfl
    | cons b bs =>
      by_cases hab : a < b
      · left; simp [chars_le, hab]
      · by_cases hba : b < a
        · right; simp [chars_le, hba]
        · have heq : a = b := le_antisymm (not_lt.mp hba) (not_lt.mp hab)
          subst heq
          rcases ih bs with h | h
          · left; simp [chars_le, h]
          · right; simp [chars_le, h]

lemma chars_le_trans : ∀ as bs cs, chars_le as bs = true → chars_le bs cs = true →
    chars_le as cs = true := by
  intro as
  induction as with
  | nil => intro bs cs _ _; rfl
  | cons a as ih =>
    intro bs cs h1 h2
    cases bs with
    | nil => simp [chars_le] at h1
    | cons b bs =>
      cases cs with
      | nil => simp [chars_le] at h2
      | cons c cs =>
        by_cases hab : a < b
        · by_cases hbc : b < c
          · simp [chars_le, lt_trans hab hbc]
          · by_cases hcb : c < b
            · simp [chars_le, hbc, hcb] at h2
            · have heq : b = c := le_antisymm (not_lt.mp hcb) (not_lt.mp hbc)
              subst heq
              simp [chars_le, hab]
        · by_cases hba : b < a
          · simp [chars_le, hab, hba] at h1
          · have heq : a = b := le_antisymm (not_lt.mp hba) (not_lt.mp hab)
            subst heq
            simp only [chars_le, lt_irrefl, if_false] at h1 ⊢
            by_cases hbc : a < c
            · simp [hbc]
            · by_cases hcb : c < a
              · simp [chars_le, hbc, hcb] at h2
              · have heq2 : a = c := le_antisymm (not_lt.mp hcb) (not_lt.mp hbc)
                subst heq2
                simp only [chars_le, lt_irrefl, if_false] at h2 ⊢
                exact ih bs cs h1 h2

instance : IsTotal String (fun a b => str_le a b = true) :=
  ⟨fun a b => chars_le_total a.data b.data⟩

instance : IsTrans String (fun a b => str_le a b = true) :=
  ⟨fun a b c => chars_le_trans a.data b.data c.data⟩

/-- C6 counterexample: two matching records that carry the same resource
code `"tw"` produce the line `---tw` twice in the cell, so the matched code
list is not deduplicated. -/
theorem c6_matched_codes_counterexample :
    (build_cell
      [{ displayName := "Translation Words", englishDisplay := "English",
         languageCode := "en", resource_code := "tw",
         resource_type := "Translation Glossary", resource_status := "Satisfied",
         resource_owner := "unfoldingWord", source := "aquifer" },
       { displayName := "Translation Words audio", englishDisplay := "English",
         languageCode := "eng", resource_code := "tw",
         resource_type := "Translation Glossary", resource_status := "In Progress",
         resource_owner := "unfoldingWord", source := "aquifer" }]
      { strategic_language := "English - [en]", language_code_2 := "en",
        language_code_3 := "eng", resource_level := 5 }
      "Translation Glossary" "Aquifer").lines = ["---tw", "---tw"]
    ∧ ¬ (build_cell
      [{ displayName := "Translation Words", englishDisplay := "English",
         languageCode := "en", resource_code := "tw",
         resource_type := "Translation Glossary", resource_status := "Satisfied",
         resource_owner := "unfoldingWord", source := "aquifer" },
       { displayName := "Translation Words audio", englishDisplay := "English",
         languageCode := "eng", resource_code := "tw",
         resource_type := "Translation Glossary", resource_status := "In Progress",
         resource_owner := "unfoldingWord", source := "aquifer" }]
      { strategic_language := "English - [en]", language_code_2 := "en",
        language_code_3 := "eng", resource_level := 5 }
      "Translation Glossary" "Aquifer").lines.Nodup := by
  refine ⟨by decide, by decide⟩

/-- C6 amended: the matched code lines of a cell are sorted, but duplicates
are retained: the list is a sorted permutation of the `---`-prefixed
resource codes of all matching records, one entry per record. -/
theorem c6_matched_codes_sorted_not_dedup (records : List Record)
    (lang : StrategicLanguage) (rt src : String) :
    (build_cell records lang rt src).lines.Sorted (fun a b => str_le a b = true)
    ∧ (build_cell records lang rt src).lines.Perm
        ((matching_resources records rt (py_lower src)
            lang.language_code_2 lang.language_code_3).map
          (fun r => "---" ++ r.resource_code)) := by
  constructor
  · exact List.sorted_insertionSort _ _
  · exact List.perm_insertionSort _ _

/-! ## Category taxonomy and DCS ingestion (`get_resource_collections`,
`get_dcs_resource_status`, `fetch_dcs_data`) -/

/-- The closed category set `all_sli_categories` (lines 17-32). -/
def all_sli_categories : List String := [
  "Bible Translation Aligned to Gk/Heb",
  "Exegetical Commentary",
  "Bible Translation Manual",
  "Gk/Heb Semantic Lexicons",
  "Gk/Heb Grammars",
  "Images, Maps, Videos",
  "Study Notes",
  "Translation Guide",
  "Comprehension Testing",
  "Bible Dictionary",
  "Bible Translation Source Text (audio preferred)",
  "Translation Glossary",
  "Foundational BT Training Videos",
  "Foundational Bible Stories"]

/-- The DCS subject to canonical category table `dcs_aquifer_code_map`
(lines 66-75). -/
def dcs_aquifer_code_map : List (String × String) := [
  ("Translation Academy", "Bible Translation Manual"),
  ("Translation Words", "Translation Glossary"),
  ("TSV Translation Notes", "Translation Guide"),
  ("TSV Translation Questions", "Comprehension Testing"),
  ("Open Bible Stories", "Foundational Bible Stories"),
  ("Aligned Bible", "Bible Translation Aligned to Gk/Heb"),
  ("Hebrew Old Testament", "Bible Translation Source Text (audio preferred)"),
  ("Greek New Testament", "Bible Translation Source Text (audio preferred)")]

/-- The known-misspelling fix-up of `get_resource_collections`
(lines 127-129). -/
def aquifer_fix (s : String) : String :=
  if s = "Foundational Bible Stores" then "Foundational Bible Stories" else s

/-- The category handling of `get_resource_collections` (lines 125-133):
a falsy `sliCategory` (absent or empty) raises `AttributeError`; the known
misspelling is fixed; a label outside the closed set raises `ValueError`. -/
def aquifer_map_category (sliCategory : Option String) : Except String String :=
  match sliCategory with
  | some s =>
    if s ≠ "" then
      if aquifer_fix s ∈ all_sli_categories then .ok (aquifer_fix s)
      else .error ("ValueError: aquifer sli_category: " ++ aquifer_fix s ++
        " not in hard coded category map.")
    else .error "AttributeError: missing sli category!!!"
  | none => .error "AttributeError: missing sli category!!!"

/-- A Python/JSON value, as far as truthiness and `dict.get` need it. -/
inductive PyVal where
  | pynone : PyVal
  | pybool : Bool → PyVal
  | pyint : ℤ → PyVal
  | pystr : String → PyVal
  | pylist : List PyVal → PyVal
  | pydict : List (String × PyVal) → PyVal

/-- Python truthiness of a value. -/
def PyVal.truthy : PyVal → Bool
  | .pynone => false
  | .pybool b => b
  | .pyint n => n != 0
  | .pystr s => !s.isEmpty
  | .pylist l => !l.isEmpty
  | .pydict l => !l.isEmpty

/-- Python `dict.get(key, default)`. -/
def dict_get (l : List (String × PyVal)) (k : String) (d : PyVal) : PyVal :=
  (l.lookup k).getD d

/-- One repository object of the DCS search response, with the fields
`fetch_dcs_data` reads; `abbreviation` and `clone_url` feed only the log
line of the skip branch. -/
structure DcsRepo where
  full_name : Option String
  subject : Option String
  abbreviation : Option String
  clone_url : Option String
  language : Option String
  catalog : Option PyVal

/-- `get_dcs_resource_status(data)` (lines 280-282):
`data.get("catalog", {}).get("prod", None)` is truthy gives `"Satisfied"`,
else `"In Progress"`; calling `.get` on a non-dict `catalog` value raises
`AttributeError`. -/
def get_dcs_resource_status (repo : DcsRepo) : Except String String :=
  match repo.catalog.getD (.pydict []) with
  | .pydict cl =>
    .ok (if (dict_get cl "prod" .pynone).truthy then "Satisfied" else "In Progress")
  | _ => .error "AttributeError: catalog value has no attribute get"

/-- Whether the repo's `catalog.prod` entry is truthy (used by the status
claim as the reading of "has a prod release"). -/
def prod_truthy (repo : DcsRepo) : Bool :=
  match repo.catalog.getD (.pydict []) with
  | .pydict cl => (dict_get cl "prod" .pynone).truthy
  | _ => false

/-- Python `s.split("-", 1)[0]` on the character list: everything before
the first `-`. -/
def split_first : List Char → List Char
  | [] => []
  | c :: cs => if c = '-' then [] else c :: split_first cs

/-- Python `s.split("-", 1)[0]` (line 309): the base language code before a
region suffix. -/
def split_base (s : String) : String := String.mk (split_first s.data)

/-- Processing of one repo object in the loop of `fetch_dcs_data`
(lines 292-316): `.ok none` is the skip (`continue`) branch, `.error` a
raised exception, `.ok (some row)` an appended row. -/
def dcs_row (repo : DcsRepo) : Except String (Option Record) :=
  let full_name := repo.full_name.getD "Unknown Name"
  let subject := repo.subject.getD "N/A"
  match dcs_aquifer_code_map.lookup subject with
  | none => .ok none
  | some sli_category =>
    if sli_category ∈ all_sli_categories then
      match get_dcs_resource_status repo with
      | .ok st => .ok (some {
          displayName := subject ++ " (" ++ full_name ++ ")"
          englishDisplay :=
            if subject = "Hebrew Old Testament" ∨ subject = "Greek New Testament"
            then "en" else repo.language.getD "N/A"
          languageCode :=
            if subject = "Hebrew Old Testament" ∨ subject = "Greek New Testament"
            then "en" else split_base (repo.language.getD "N/A")
          resource_code := subject ++ " (" ++ full_name ++ ")"
          resource_type := sli_category
          resource_status := st
          resource_owner := "unfoldingWord"
          source := "dcs" })
      | .error e => .error e
    else .error ("ValueError: dcs sli_category: " ++ sli_category ++
      " not in hard coded category map.")

/-- The whole `fetch_dcs_data` loop: skipped repos contribute nothing, a
raised exception aborts the batch. -/
def fetch_dcs_rows : List DcsRepo → Except String (List Record)
  | [] => .ok []
  | r :: rs =>
    match dcs_row r with
    | .error e => .error e
    | .ok none => fetch_dcs_rows rs
    | .ok (some rec) => Except.map (fun l => rec :: l) (fetch_dcs_rows rs)

lemma lookup_eq_none_of_not_mem_keys {β : Type} (l : List (String × β)) (k : String)
    (h : k ∉ l.map Prod.fst) : l.lookup k = none := by
  induction l with
  | nil => rfl
  | cons p t ih =>
    obtain ⟨a, b⟩ := p
    simp only [List.map_cons, List.mem_cons, not_or] at h
    have hne : (k == a) = false := beq_eq_false_iff_ne.mpr h.1
    simp [List.lookup, hne, ih h.2]

lemma dcs_row_ok_some (repo : DcsRepo) (rec : Record)
    (h : dcs_row repo = .ok (some rec)) :
    ∃ cat st,
      dcs_aquifer_code_map.lookup (repo.subject.getD "N/A") = some cat
      ∧ get_dcs_resource_status repo = .ok st
      ∧ rec = {
          displayName := repo.subject.getD "N/A" ++ " (" ++
            repo.full_name.getD "Unknown Name" ++ ")"
          englishDisplay :=
            if repo.subject.getD "N/A" = "Hebrew Old Testament"
                ∨ repo.subject.getD "N/A" = "Greek New Testament"
            then "en" else repo.language.getD "N/A"
          languageCode :=
            if repo.subject.getD "N/A" = "Hebrew Old Testament"
                ∨ repo.subject.getD "N/A" = "Greek New Testament"
            then "en" else split_base (repo.language.getD "N/A")
          resource_code := repo.subject.getD "N/A" ++ " (" ++
            repo.full_name.getD "Unknown Name" ++ ")"
          resource_type := cat
          resource_status := st
          resource_owner := "unfoldingWord"
          source := "dcs" } := by
  cases hlk : dcs_aquifer_code_map.lookup (repo.subject.getD "N/A") with
  | none =>
    simp only [dcs_row, hlk] at h
    simp at h
  | some cat =>
    simp only [dcs_row, hlk] at h
    by_cases hmem : cat ∈ all_sli_categories
    · rw [if_pos hmem] at h
      cases hst : get_dcs_resource_status repo with
      | error e => rw [hst] at h; exact Except.noConfusion h
      | ok st =>
        rw [hst] at h
        simp only [Except.ok.injEq, Option.some.injEq] at h
        exact ⟨cat, st, rfl, rfl, h.symm⟩
    · rw [if_neg hmem] at h
      exact Except.noConfusion h

lemma get_dcs_status_cases (repo : DcsRepo) (st : String)
    (h : get_dcs_resource_status repo = .ok st) :
    (st = "Satisfied" ∧ prod_truthy repo = true)
    ∨ (st = "In Progress" ∧ prod_truthy repo = false) := by
  unfold get_dcs_resource_status at h
  cases hcat : repo.catalog.getD (.pydict []) with
  | pynone => simp only [hcat] at h; exact Except.noConfusion h
  | pybool b => simp only [hcat] at h; exact Except.noConfusion h
  | pyint n => simp only [hcat] at h; exact Except.noConfusion h
  | pystr s => simp only [hcat] at h; exact Except.noConfusion h
  | pylist l => simp only [hcat] at h; exact Except.noConfusion h
  | pydict cl =>
    simp only [hcat] at h
    have hp : prod_truthy repo = (dict_get cl "prod" PyVal.pynone).truthy := by
      unfold prod_truthy
      rw [hcat]
    cases htr : (dict_get cl "prod" PyVal.pynone).truthy with
    | true =>
      rw [htr] at h hp
      simp at h
      exact Or.inl ⟨h.symm, hp⟩
    | false =>
      rw [htr] at h hp
      simp at h
      exact Or.inr ⟨h.symm, hp⟩

/-- C7 counterexample: a DCS record with a missing subject is not fatal.
`obj.get("subject", "N/A")` defaults the missing label to `"N/A"`, which is
unmapped, so the record is skipped with a warning (`.ok none`), while the
claim says a missing label raises an error from either catalog. -/
theorem c7_missing_label_counterexample :
    dcs_row { full_name := some "unfoldingWord/fr_ulb", subject := none,
              abbreviation := some "ulb",
              clone_url := some "https://git.door43.org/x",
              language := some "fr",
              catalog := some (PyVal.pydict []) } = .ok none := rfl

/-- C7 amended: a missing or empty category label is fatal only for the
curated catalog (Aquifer raises `AttributeError`), as is an Aquifer label
outside the closed set (`ValueError`); a DCS record whose subject is
missing (defaulted to `"N/A"`) or otherwise unmapped is dropped with a
logged warning, never an error. -/
theorem c7_label_failure_policy :
    aquifer_map_category none = .error "AttributeError: missing sli category!!!"
    ∧ aquifer_map_category (some "") = .error "AttributeError: missing sli category!!!"
    ∧ (∀ s : String, s ≠ "" → aquifer_fix s ∉ all_sli_categories →
        aquifer_map_category (some s) =
          .error ("ValueError: aquifer sli_category: " ++ aquifer_fix s ++
            " not in hard coded category map."))
    ∧ (∀ repo : DcsRepo,
        repo.subject.getD "N/A" ∉ dcs_aquifer_code_map.map Prod.fst →
        dcs_row repo = .ok none)
    ∧ (∀ repo : DcsRepo, repo.subject = none → dcs_row repo = .ok none) := by
  have h4 : ∀ repo : DcsRepo,
      repo.subject.getD "N/A" ∉ dcs_aquifer_code_map.map Prod.fst →
      dcs_row repo = .ok none := by
    intro repo h
    have hlk := lookup_eq_none_of_not_mem_keys dcs_aquifer_code_map _ h
    simp only [dcs_row, hlk]
  refine ⟨rfl, rfl, ?_, h4, ?_⟩
  · intro s hs hnot
    simp only [aquifer_map_category]
    rw [if_pos hs, if_neg hnot]
  · intro repo h
    apply h4
    rw [h]
    decide

theorem c7_label_failure_policy_witness :
    (("Sermons" : String) ≠ ""
      ∧ aquifer_fix "Sermons" ∉ all_sli_categories
      ∧ aquifer_map_category (some "Sermons") =
          .error ("ValueError: aquifer sli_category: " ++ aquifer_fix "Sermons" ++
            " not in hard coded category map."))
    ∧ dcs_row { full_name := some "door43/es_sermons", subject := some "Sermons",
                abbreviation := some "srm",
                clone_url := some "https://git.door43.org/y",
                language := some "es-419",
                catalog := some (PyVal.pydict []) } = .ok none :=
  ⟨⟨by decide, by decide,
      c7_label_failure_policy.2.2.1 "Sermons" (by decide) (by decide)⟩,
    c7_label_failure_policy.2.2.2.1 _ (by decide)⟩

/-- C8: every DCS record bypasses the baseline calculator: its status comes
from `get_dcs_resource_status` alone, is `"Satisfied"` exactly when the
catalog entry's `prod` release value is truthy and `"In Progress"`
otherwise, and is never `"Unknown"` or `""` (Empty). -/
theorem c8_dcs_status_bypass :
    (∀ repo : DcsRepo, ∀ st : String, get_dcs_resource_status repo = .ok st →
        (st = "Satisfied" ↔ prod_truthy repo = true)
        ∧ (st = "Satisfied" ∨ st = "In Progress"))
    ∧ (∀ repo : DcsRepo, ∀ rec : Record, dcs_row repo = .ok (some rec) →
        get_dcs_resource_status repo = .ok rec.resource_status
        ∧ (rec.resource_status = "Satisfied" ∨ rec.resource_status = "In Progress")
        ∧ rec.resource_status ≠ "Unknown" ∧ rec.resource_status ≠ "") := by
  have hmain : ∀ repo : DcsRepo, ∀ st : String,
      get_dcs_resource_status repo = .ok st →
      (st = "Satisfied" ↔ prod_truthy repo = true)
      ∧ (st = "Satisfied" ∨ st = "In Progress") := by
    intro repo st h
    rcases get_dcs_status_cases repo st h with ⟨h1, h2⟩ | ⟨h1, h2⟩
    · subst h1
      exact ⟨by simp [h2], Or.inl rfl⟩
    · subst h1
      refine ⟨⟨fun hc => absurd hc (by decide), fun hc => ?_⟩, Or.inr rfl⟩
      rw [h2] at hc
      exact absurd hc (by decide)
  refine ⟨hmain, ?_⟩
  intro repo rec h
  obtain ⟨cat, st, hlk, hst, hrec⟩ := dcs_row_ok_some repo rec h
  have hres : rec.resource_status = st := by rw [hrec]
  rw [hres]
  refine ⟨hst, (hmain repo st hst).2, ?_, ?_⟩
  · rcases (hmain repo st hst).2 with rfl | rfl <;> decide
  · rcases (hmain repo st hst).2 with rfl | rfl <;> decide

theorem c8_dcs_status_bypass_witness :
    get_dcs_resource_status
      { full_name := some "unfoldingWord/en_ta",
        subject := some "Translation Academy",
        abbreviation := some "ta",
        clone_url := some "https://git.door43.org/z",
        language := some "en",
        catalog := some (PyVal.pydict [("prod", PyVal.pystr "v1")]) }
      = .ok "Satisfied"
    ∧ (("Satisfied" : String) = "Satisfied" ∨ ("Satisfied" : String) = "In Progress") := by
  have h : get_dcs_resource_status
      { full_name := some "unfoldingWord/en_ta",
        subject := some "Translation Academy",
        abbreviation := some "ta",
        clone_url := some "https://git.door43.org/z",
        language := some "en",
        catalog := some (PyVal.pydict [("prod", PyVal.pystr "v1")]) }
      = .ok "Satisfied" := rfl
  exact ⟨h, (c8_dcs_status_bypass.1 _ "Satisfied" h).2⟩

/-- C10: a DCS record whose subject is "Hebrew Old Testament" or
"Greek New Testament" has both language fields rewritten to `"en"`, so it
can only match a cell whose language has `"en"` as one of its codes; every
other DCS record keeps its language tag, with the region suffix split off
for the base code. -/
theorem c10_hebrew_greek_rewritten_to_english :
    (∀ repo : DcsRepo, ∀ rec : Record, dcs_row repo = .ok (some rec) →
      ((repo.subject = some "Hebrew Old Testament"
          ∨ repo.subject = some "Greek New Testament") →
        rec.englishDisplay = "en" ∧ rec.languageCode = "en")
      ∧ (repo.subject ≠ some "Hebrew Old Testament" →
          repo.subject ≠ some "Greek New Testament" →
        rec.englishDisplay = repo.language.getD "N/A"
        ∧ rec.languageCode = split_base (repo.language.getD "N/A")))
    ∧ (∀ repo : DcsRepo, ∀ rec : Record, ∀ records : List Record,
        ∀ rt sk c2 c3 : String,
        dcs_row repo = .ok (some rec) →
        (repo.subject = some "Hebrew Old Testament"
          ∨ repo.subject = some "Greek New Testament") →
        rec ∈ matching_resources records rt sk c2 c3 →
        c2 = "en" ∨ c3 = "en") := by
  have hpos : ∀ repo : DcsRepo, ∀ rec : Record, dcs_row repo = .ok (some rec) →
      (repo.subject = some "Hebrew Old Testament"
        ∨ repo.subject = some "Greek New Testament") →
      rec.englishDisplay = "en" ∧ rec.languageCode = "en" := by
    intro repo rec h hsub
    obtain ⟨cat, st, hlk, hst, hrec⟩ := dcs_row_ok_some repo rec h
    have hcond : repo.subject.getD "N/A" = "Hebrew Old Testament"
        ∨ repo.subject.getD "N/A" = "Greek New Testament" := by
      rcases hsub with h1 | h1 <;> rw [h1] <;> simp
    rw [hrec]
    simp only [if_pos hcond]
    exact ⟨trivial, trivial⟩
  refine ⟨?_, ?_⟩
  · intro repo rec h
    refine ⟨hpos repo rec h, ?_⟩
    intro h1 h2
    obtain ⟨cat, st, hlk, hst, hrec⟩ := dcs_row_ok_some repo rec h
    have hcond : ¬(repo.subject.getD "N/A" = "Hebrew Old Testament"
        ∨ repo.subject.getD "N/A" = "Greek New Testament") := by
      cases hrs : repo.subject with
      | none => decide
      | some s =>
        simp only [Option.getD_some]
        rintro (hc | hc)
        · exact h1 (hrs.trans (congrArg some hc))
        · exact h2 (hrs.trans (congrArg some hc))
    rw [hrec]
    simp only [if_neg hcond]
    exact ⟨trivial, trivial⟩
  · intro repo rec records rt sk c2 c3 h hsub hmem
    have hlang : rec.languageCode = "en" := (hpos repo rec h hsub).2
    rcases (mem_matching_resources.mp hmem).2.2.2 with hc | hc
    · exact Or.inl (by rw [← hc, hlang])
    · exact Or.inr (by rw [← hc, hlang])

theorem c10_hebrew_greek_rewritten_to_english_witness :
    dcs_row
      { full_name := some "unfoldingWord/hbo_uhb",
        subject := some "Hebrew Old Testament",
        abbreviation := some "uhb",
        clone_url := some "https://git.door43.org/w",
        language := some "hbo",
        catalog := some (PyVal.pydict []) }
      = .ok (some
      { displayName := "Hebrew Old Testament (unfoldingWord/hbo_uhb)",
        englishDisplay := "en",
        languageCode := "en",
        resource_code := "Hebrew Old Testament (unfoldingWord/hbo_uhb)",
        resource_type := "Bible Translation Source Text (audio preferred)",
        resource_status := "In Progress",
        resource_owner := "unfoldingWord",
        source := "dcs" })
    ∧ ({ displayName := "Hebrew Old Testament (unfoldingWord/hbo_uhb)",
         englishDisplay := "en",
         languageCode := "en",
         resource_code := "Hebrew Old Testament (unfoldingWord/hbo_uhb)",
         resource_type := "Bible Translation Source Text (audio preferred)",
         resource_status := "In Progress",
         resource_owner := "unfoldingWord",
         source := "dcs" } : Record).englishDisplay = "en" := by
  have h : dcs_row
      { full_name := some "unfoldingWord/hbo_uhb",
        subject := some "Hebrew Old Testament",
        abbreviation := some "uhb",
        clone_url := some "https://git.door43.org/w",
        language := some "hbo",
        catalog := some (PyVal.pydict []) }
      = .ok (some
      { displayName := "Hebrew Old Testament (unfoldingWord/hbo_uhb)",
        englishDisplay := "en",
        languageCode := "en",
        resource_code := "Hebrew Old Testament (unfoldingWord/hbo_uhb)",
        resource_type := "Bible Translation Source Text (audio preferred)",
        resource_status := "In Progress",
        resource_owner := "unfoldingWord",
        source := "dcs" }) := by decide
  exact ⟨h, ((c10_hebrew_greek_rewritten_to_english.1 _ _ h).1 (Or.inl rfl)).1⟩

/-! ## Database output (`save_to_fred`) -/

/-- The matching filter of `save_to_fred` (lines 346-350): category and
language code only — unlike the Excel path there is no source condition. -/
def fred_matching (records : List Record)
    (resource_type code2 code3 : String) : List Record :=
  records.filter (fun r =>
    r.resource_type == resource_type &&
      (r.languageCode == code2 || r.languageCode == code3))

/-- One row of the `kr1_progress_data` insert (lines 77-87), in column
order; `none` is SQL NULL. -/
structure FredRow where
  language_code : String
  resource_name : Option String
  resource_code : Option String
  resource_owner : Option String
  source : Option String
  sli_category : Option String
  resource_status : Option String
deriving DecidableEq

/-- The rows `save_to_fred` inserts for one (category, language) pair
(lines 351-378): a lone placeholder with NULLs when nothing matches, one
row per matching record otherwise, always keyed by the 3-letter code. -/
def fred_rows_for_cell (records : List Record)
    (resource_type code2 code3 : String) : List FredRow :=
  let m := fred_matching records resource_type code2 code3
  if m.isEmpty then
    [{ language_code := code3, resource_name := none, resource_code := none,
       resource_owner := none, source := none, sli_category := some resource_type,
       resource_status := none }]
  else
    m.map (fun r =>
      { language_code := code3, resource_name := some r.displayName,
        resource_code := some r.resource_code,
        resource_owner := some r.resource_owner,
        source := some r.source, sli_category := some r.resource_type,
        resource_status := some r.resource_status })

/-- The whole insert loop of `save_to_fred` (lines 342-378): categories
outer, language rows inner. -/
def save_to_fred_rows (langs : List StrategicLanguage) (headers : List String)
    (records : List Record) : List FredRow :=
  headers.flatMap (fun rt => langs.flatMap (fun lang =>
    fred_rows_for_cell records rt lang.language_code_2 lang.language_code_3))

/-- C9: the database path matches per (language, category) with no source
filter; a pair with at least one matching record (from either source) gets
exactly one row per matching record, each with a non-NULL source and
status, and no placeholder; only a pair with no matching record gets the
single placeholder row with NULL status and NULL source; all rows are keyed
by the 3-letter language code. -/
theorem c9_fred_rows (records : List Record) (rt c2 c3 : String) :
    (∀ r : Record, r ∈ fred_matching records rt c2 c3 ↔
        r ∈ records ∧ r.resource_type = rt ∧
          (r.languageCode = c2 ∨ r.languageCode = c3))
    ∧ (fred_matching records rt c2 c3 ≠ [] →
        (fred_rows_for_cell records rt c2 c3).length =
          (fred_matching records rt c2 c3).length
        ∧ ∀ row ∈ fred_rows_for_cell records rt c2 c3,
            row.language_code = c3 ∧ row.source.isSome ∧ row.resource_status.isSome)
    ∧ (fred_matching records rt c2 c3 = [] →
        fred_rows_for_cell records rt c2 c3 =
          [{ language_code := c3, resource_name := none, resource_code := none,
             resource_owner := none, source := none, sli_category := some rt,
             resource_status := none }]) := by
  refine ⟨?_, ?_, ?_⟩
  · intro r
    simp [fred_matching, List.mem_filter, and_assoc]
  · intro hne
    have hie : (fred_matching records rt c2 c3).isEmpty = false := by
      rw [List.isEmpty_eq_false]
      exact hne
    constructor
    · simp [fred_rows_for_cell, hie]
    · intro row hrow
      simp only [fred_rows_for_cell, hie, Bool.false_eq_true, if_false,
        List.mem_map] at hrow
      obtain ⟨r, _, hr⟩ := hrow
      rw [← hr]
      exact ⟨rfl, rfl, rfl⟩
  · intro he
    simp [fred_rows_for_cell, he]

theorem c9_fred_rows_witness :
    fred_matching [] "Study Notes" "es" "spa" = []
    ∧ fred_rows_for_cell [] "Study Notes" "es" "spa" =
        [{ language_code := "spa", resource_name := none, resource_code := none,
           resource_owner := none, source := none, sli_category := some "Study Notes",
           resource_status := none }] :=
  ⟨rfl, (c9_fred_rows [] "Study Notes" "es" "spa").2.2 rfl⟩
